import Mathlib

/-!
Verification of the barter-data-rs stream-unification core against its
specification.

The development shallowly embeds the three source files:
* `src/exchange/okx/domain/trade.rs` — the OKX trades wire message
  (`OkxMessage<OkxTrade>`), its serde deserialization behaviour, the
  routing-key extraction, and the conversion to `MarketIter<PublicTrade>`;
* `src/streams/builder/multi.rs` — the `MultiStreamBuilder` composition
  engine (`add`, `init`, the forwarding tasks);
* `src/exchange/bybit/futures/mod.rs` — a trivial server descriptor (no
  claim touches it).

Machine floats of the source (`f64` fields parsed from text) are embedded as
exact scaled decimals (`Dec`, with a rational view `Dec.toRat`): every
decimal numeral occurring in the claims is exactly representable, and the
observable equalities of the spec's scenarios are equalities of parsed
decimal text. `DateTime<Utc>` values are embedded as
proleptic-Gregorian calendar fields computed from epoch milliseconds.
Helpers of the repository that are not part of the provided sources
(`crate::util::de_str`, `crate::util::de_str_epoch_ms_as_datetime_utc`,
`super::subscription_id`, `barter_integration`'s `Side`) are modelled from
the spec, marked as such in their doc comments.
-/

deriving instance DecidableEq for Except

/-- A minimal JSON value model: every field of the OKX trades wire format is
a string, an array, or an object, so numbers/booleans/null are not needed. -/
inductive Json where
  | str (s : String)
  | arr (elems : List Json)
  | obj (fields : List (String × Json))

/-- Typed decode error, mirroring serde's error taxonomy restricted to what
the embedded deserializers can produce: a missing struct field, a value of
the wrong JSON type, or text that fails field-level coercion. -/
inductive DeError where
  | missingField (field : String)
  | typeMismatch (field : String)
  | invalidValue (field : String) (got : String)
deriving DecidableEq, Repr

/-- Look a field up in a JSON object (serde deserializes struct fields by
name; first occurrence wins). -/
def Json.getField (j : Json) (name : String) : Option Json :=
  match j with
  | .obj fields => fields.lookup name
  | _ => none

def Json.getStr : Json → Option String
  | .str s => some s
  | _ => none

/-- Extract a string-typed struct field, with serde-style errors. -/
def getStrField (j : Json) (name : String) : Except DeError String :=
  match j.getField name with
  | none => .error (.missingField name)
  | some v =>
    match v.getStr with
    | some s => .ok s
    | none => .error (.typeMismatch name)

/-- Numeric value of a decimal digit, or `none`. -/
def digitVal (c : Char) : Option Nat :=
  if c.isDigit then some (c.toNat - 48) else none

def parseDigitsAux : List Char → Nat → Option Nat
  | [], acc => some acc
  | c :: cs, acc =>
    match digitVal c with
    | some d => parseDigitsAux cs (acc * 10 + d)
    | none => none

/-- Parse a non-empty sequence of decimal digits to a `Nat`. -/
def parseNatDigits : List Char → Option Nat
  | [] => none
  | cs => parseDigitsAux cs 0

/-- Split a character list at the first decimal point, if any. -/
def splitFrac : List Char → List Char × Option (List Char)
  | [] => ([], none)
  | c :: cs =>
    if c = '.' then ([], some cs)
    else
      let (pre, post) := splitFrac cs
      (c :: pre, post)

/-- Exact value of parsed decimal text: a mantissa and a power-of-ten
scale, denoting `mant / 10 ^ scale`. The parse is deterministic, so
distinct representations of one rational never arise from equal text. -/
structure Dec where
  mant : Int
  scale : Nat
deriving DecidableEq, Repr

/-- The rational a parsed decimal denotes. -/
def Dec.toRat (d : Dec) : Rat :=
  (d.mant : Rat) / (10 : Rat) ^ d.scale

def parseUnsignedDecimal (cs : List Char) : Option Dec :=
  match splitFrac cs with
  | (ip, none) => (parseNatDigits ip).map (fun n => ⟨Int.ofNat n, 0⟩)
  | (ip, some fcs) =>
    match parseNatDigits ip, parseNatDigits fcs with
    | some n, some f =>
      some ⟨Int.ofNat (n * Nat.pow 10 fcs.length + f), fcs.length⟩
    | _, _ => none

/-- Modelled from the spec: `crate::util::de_str` is not among the provided
sources. Per the spec, "numeric values transmitted as text must be parsed to
floating point"; the parsed value of decimal text `[-]digits[.digits]` is
embedded exactly, and any other text (e.g. `"abc"`) fails. -/
def parseDecimal (s : String) : Option Dec :=
  match s.toList with
  | '-' :: rest => (parseUnsignedDecimal rest).map (fun d => ⟨-d.mant, d.scale⟩)
  | cs => parseUnsignedDecimal cs

/-- A UTC instant in proleptic-Gregorian calendar fields, the embedding of
`chrono::DateTime<Utc>`. -/
structure DateTimeUtc where
  year : Int
  month : Nat
  day : Nat
  hour : Nat
  minute : Nat
  second : Nat
  msec : Nat
deriving DecidableEq, Repr

/-- Civil date from a count of days since 1970-01-01 (standard O(1)
days-to-civil conversion). Returns (year, month, day). -/
def civilFromDays (z0 : Nat) : Int × Nat × Nat :=
  let z := z0 + 719468
  let era := z / 146097
  let doe := z % 146097
  let yoe := (doe - doe / 1460 + doe / 36524 - doe / 146096) / 365
  let y : Int := (yoe : Int) + (era : Int) * 400
  let doy := doe - (365 * yoe + yoe / 4 - yoe / 100)
  let mp := (5 * doy + 2) / 153
  let d := doy - (153 * mp + 2) / 5 + 1
  let m := if mp < 10 then mp + 3 else mp - 9
  (if m ≤ 2 then y + 1 else y, m, d)

/-- UTC instant from non-negative epoch milliseconds. -/
def msToDateTimeUtc (ms : Nat) : DateTimeUtc :=
  let secs := ms / 1000
  let days := secs / 86400
  let sod := secs % 86400
  let ymd := civilFromDays days
  { year := ymd.1, month := ymd.2.1, day := ymd.2.2
    hour := sod / 3600, minute := sod % 3600 / 60, second := sod % 60
    msec := ms % 1000 }

/-- Modelled from the spec: `barter_integration::model::Side` is an external
dependency. Per the spec, side tokens map to "a canonical two-valued side". -/
inductive Side where
  | buy
  | sell
deriving DecidableEq, Repr

/-- Modelled from the spec: deserialization of a `Side` from its wire token;
"an unrecognized side token" fails with a typed decode error. -/
def parseSide (s : String) : Except DeError Side :=
  if s = "buy" then .ok .buy
  else if s = "sell" then .ok .sell
  else .error (.invalidValue "side" s)

/-- Modelled from the spec: `barter_integration::model::SubscriptionId` as
produced by `super::subscription_id` (not among the provided sources). Per
the spec, the routing key is "a value composed of (normalized channel name,
normalized instrument identifier)". -/
structure SubscriptionId where
  channel : String
  instId : String
deriving DecidableEq, Repr

/-- Modelled from the spec: `super::subscription_id` composes the routing
key from the channel name and the instrument identifier. -/
def subscription_id (channel instId : String) : SubscriptionId :=
  ⟨channel, instId⟩

/-- Embedding of `de_okx_message_arg_as_subscription_id`
(trade.rs 113–126): deserialize the `arg` object as the camelCase struct
`Arg { channel, inst_id }` and map it through `subscription_id`. -/
def de_okx_message_arg_as_subscription_id (j : Json) : Except DeError SubscriptionId := do
  let channel ← getStrField j "channel"
  let instId ← getStrField j "instId"
  pure (subscription_id channel instId)

/-- Embedding of `OkxTrade` (trade.rs 70–81): one element of the `data`
array, with the serde field renames and text coercions applied. -/
structure OkxTrade where
  id : String
  price : Dec
  amount : Dec
  side : Side
  time : DateTimeUtc
deriving DecidableEq, Repr

/-- Serde-derive deserialization of one `OkxTrade` from a JSON object:
`tradeId` is a string, `px`/`sz` are text decimals (`de_str`), `side` is a
side token, `ts` is epoch-millisecond text
(`de_str_epoch_ms_as_datetime_utc`). -/
def parseOkxTrade (j : Json) : Except DeError OkxTrade := do
  let id ← getStrField j "tradeId"
  let pxs ← getStrField j "px"
  let price ← match parseDecimal pxs with
    | some q => Except.ok q
    | none => Except.error (.invalidValue "px" pxs)
  let szs ← getStrField j "sz"
  let amount ← match parseDecimal szs with
    | some q => Except.ok q
    | none => Except.error (.invalidValue "sz" szs)
  let sides ← getStrField j "side"
  let side ← parseSide sides
  let tss ← getStrField j "ts"
  let time ← match parseNatDigits tss.toList with
    | some ms => Except.ok (msToDateTimeUtc ms)
    | none => Except.error (.invalidValue "ts" tss)
  pure { id := id, price := price, amount := amount, side := side, time := time }

/-- Embedding of `OkxMessage<T>` (trade.rs 42–47): the routing key extracted
from the `arg` envelope, plus the `data` batch. -/
structure OkxMessage (T : Type) where
  subscription_id : SubscriptionId
  data : List T
deriving DecidableEq

/-- Serde deserialization of `Vec<OkxTrade>`: elements are deserialized in
order and the FIRST failing element fails the whole sequence (serde `Vec`
deserialization is all-or-nothing). -/
def parseTradeList : List Json → Except DeError (List OkxTrade)
  | [] => .ok []
  | j :: js => do
    let t ← parseOkxTrade j
    let ts ← parseTradeList js
    pure (t :: ts)

/-- Serde-derive deserialization of a whole `OkxMessage<OkxTrade>` wire
frame (type alias `OkxTrades`). -/
def parseOkxTrades (j : Json) : Except DeError (OkxMessage OkxTrade) := do
  let argJ ← match j.getField "arg" with
    | some a => Except.ok a
    | none => Except.error (.missingField "arg")
  let sid ← de_okx_message_arg_as_subscription_id argJ
  let dataJ ← match j.getField "data" with
    | some (.arr xs) => Except.ok xs
    | some _ => Except.error (.typeMismatch "data")
    | none => Except.error (.missingField "data")
  let data ← parseTradeList dataJ
  pure { subscription_id := sid, data := data }

/-- Embedding of the canonical `PublicTrade` payload. -/
structure PublicTrade where
  id : String
  price : Dec
  amount : Dec
  side : Side
deriving DecidableEq, Repr

/-- Embedding of the canonical event envelope `Market<Event>`. Venue and
instrument identifiers are embedded as strings. -/
structure Market (Event : Type) where
  exchange_time : DateTimeUtc
  received_time : DateTimeUtc
  exchange : String
  instrument : String
  event : Event
deriving DecidableEq

/-- Embedding of `DataError` (per-item error type of `MarketIter`). -/
inductive DataError where
  | socket (msg : String)
deriving DecidableEq, Repr

/-- Embedding of `MarketIter<Event>`: a finite sequence of independently
fallible canonical events. -/
abbrev MarketIter (Event : Type) := List (Except DataError (Market Event))

/-- The canonical event the `From` impl builds for one decoded trade.
`now` is the wall-clock receipt timestamp (`Utc::now()`), passed
explicitly. -/
def mkMarket (exchange_id instrument : String) (now : DateTimeUtc)
    (trade : OkxTrade) : Market PublicTrade :=
  { exchange_time := trade.time
    received_time := now
    exchange := exchange_id
    instrument := instrument
    event := { id := trade.id, price := trade.price
               amount := trade.amount, side := trade.side } }

/-- Embedding of
`From<(ExchangeId, Instrument, OkxMessage<OkxTrade>)> for MarketIter<PublicTrade>`
(trade.rs 89–109): map every decoded trade of the batch to `Ok(Market …)`. -/
def marketIterFromOkxTrades (exchange_id instrument : String)
    (now : DateTimeUtc) (message : OkxMessage OkxTrade) :
    MarketIter PublicTrade :=
  message.data.map (fun trade => Except.ok (mkMarket exchange_id instrument now trade))

/-- The full OKX trades path as the claims exercise it: deserialize the wire
frame, then normalize the decoded message. A deserialization failure fails
the whole frame before any canonical event exists. -/
def okxTradesPipeline (exchange_id instrument : String) (now : DateTimeUtc)
    (j : Json) : Except DeError (MarketIter PublicTrade) :=
  (parseOkxTrades j).map (marketIterFromOkxTrades exchange_id instrument now)

/-- The `arg` routing envelope of an OKX wire frame for a channel and an
instrument identifier. -/
def argJson (channel instId : String) : Json :=
  .obj [("channel", .str channel), ("instId", .str instId)]

/-- The valid trade record of the spec's scenarios. -/
def goodTradeJson : Json :=
  .obj [("tradeId", .str "1"), ("px", .str "100.5"), ("sz", .str "0.01"),
        ("side", .str "buy"), ("ts", .str "1700000000000")]

/-- A trade record with malformed numeric text in its `px` field. -/
def badTradeJson : Json :=
  .obj [("tradeId", .str "2"), ("px", .str "abc"), ("sz", .str "0.01"),
        ("side", .str "buy"), ("ts", .str "1700000000000")]

/-- The spec's single-trade scenario batch. -/
def c6Batch : Json :=
  .obj [("arg", argJson "trades" "BTC-USDT"), ("data", .arr [goodTradeJson])]

/-- The spec's two-record batch: one malformed record and one valid one. -/
def c1Batch : Json :=
  .obj [("arg", argJson "trades" "BTC-USDT"),
        ("data", .arr [badTradeJson, goodTradeJson])]

theorem except_error_bind {ε α β : Type} (e : ε) (f : α → Except ε β) :
    (Except.error e >>= f : Except ε β) = Except.error e := rfl

theorem except_ok_bind {ε α β : Type} (a : α) (f : α → Except ε β) :
    (Except.ok a >>= f : Except ε β) = f a := rfl

/-- Claim C2: for every decoded OKX trades message, normalization produces
exactly one outcome per `data` element — each a success — and the i-th
outcome is built from the i-th input trade (input order preserved). -/
theorem okx_normalization_exactly_n_ordered (exchange_id instrument : String)
    (now : DateTimeUtc) (msg : OkxMessage OkxTrade) :
    (marketIterFromOkxTrades exchange_id instrument now msg).length = msg.data.length ∧
    marketIterFromOkxTrades exchange_id instrument now msg =
      msg.data.map (fun trade => Except.ok (mkMarket exchange_id instrument now trade)) :=
  ⟨by simp [marketIterFromOkxTrades], rfl⟩

/-- Claim C6: the scenario wire batch normalizes to exactly one canonical
trade event with price 100.5, amount 0.01, side buy, and venue-reported
time 2023-11-14T22:13:20Z (parsed from epoch-millisecond text
"1700000000000"). -/
theorem okx_scenario_trade_normalizes (now : DateTimeUtc) :
    okxTradesPipeline "okx" "BTC-USDT" now c6Batch =
      .ok [.ok { exchange_time := ⟨2023, 11, 14, 22, 13, 20, 0⟩
                 received_time := now
                 exchange := "okx"
                 instrument := "BTC-USDT"
                 event := { id := "1", price := ⟨1005, 1⟩, amount := ⟨1, 2⟩,
                            side := .buy } }] ∧
    Dec.toRat ⟨1005, 1⟩ = 100.5 ∧ Dec.toRat ⟨1, 2⟩ = 0.01 := by
  refine ⟨?_, by norm_num [Dec.toRat], by norm_num [Dec.toRat]⟩
  have h : parseOkxTrades c6Batch =
      .ok { subscription_id := ⟨"trades", "BTC-USDT"⟩
            data := [{ id := "1", price := ⟨1005, 1⟩, amount := ⟨1, 2⟩, side := .buy,
                       time := ⟨2023, 11, 14, 22, 13, 20, 0⟩ }] } := by decide
  unfold okxTradesPipeline
  rw [h]
  rfl

/-- Claim C1 counterexample: the two-record batch with one malformed `px`
fails deserialization of the WHOLE message with a single decode error; no
outcome list is produced at all, so it does not yield one decode error
alongside one successful canonical event — the valid sibling is discarded. -/
theorem okx_malformed_element_counterexample :
    okxTradesPipeline "okx" "BTC-USDT" (msToDateTimeUtc 0) c1Batch =
      .error (.invalidValue "px" "abc") ∧
    ∀ outcomes : MarketIter PublicTrade,
      okxTradesPipeline "okx" "BTC-USDT" (msToDateTimeUtc 0) c1Batch ≠ .ok outcomes := by
  have h : okxTradesPipeline "okx" "BTC-USDT" (msToDateTimeUtc 0) c1Batch =
      .error (.invalidValue "px" "abc") := by decide
  refine ⟨h, ?_⟩
  intro outcomes hc
  rw [h] at hc
  exact Except.noConfusion hc

/-- Claim C1 (amended): serde `Vec` deserialization is all-or-nothing — the
first malformed element of a `data` batch fails deserialization of the
entire element list with that element's typed decode error, and sibling
elements are discarded rather than decoded independently. -/
theorem okx_malformed_element_fails_whole_batch (pre post : List Json)
    (bad : Json) (e : DeError)
    (hpre : ∀ j ∈ pre, (parseOkxTrade j).isOk = true)
    (hbad : parseOkxTrade bad = .error e) :
    parseTradeList (pre ++ bad :: post) = .error e := by
  induction pre with
  | nil => simp [parseTradeList, hbad, except_error_bind]
  | cons j js ih =>
    have hj : (parseOkxTrade j).isOk = true := hpre j (by simp)
    obtain ⟨t, ht⟩ : ∃ t, parseOkxTrade j = .ok t := by
      cases hpj : parseOkxTrade j with
      | ok t => exact ⟨t, rfl⟩
      | error e2 => rw [hpj] at hj; simp [Except.isOk, Except.toBool] at hj
    have hrec := ih (fun x hx => hpre x (by simp [hx]))
    simp [parseTradeList, ht, hrec, except_ok_bind, except_error_bind]

/-- Witness for the amended C1 theorem: a valid record followed by the
malformed record fails the whole list with the malformed record's error. -/
theorem okx_malformed_element_fails_whole_batch_witness :
    (∀ j ∈ [goodTradeJson], (parseOkxTrade j).isOk = true) ∧
    parseOkxTrade badTradeJson = .error (.invalidValue "px" "abc") ∧
    parseTradeList ([goodTradeJson] ++ badTradeJson :: []) =
      .error (.invalidValue "px" "abc") :=
  ⟨by decide, by decide,
   okx_malformed_element_fails_whole_batch [goodTradeJson] [] badTradeJson
     (.invalidValue "px" "abc") (by decide) (by decide)⟩

/-- Claim C5: routing-key extraction is deterministic — the arg object of a
(channel, instId) pair always deserializes to `subscription_id channel
instId` — and injective on instruments under a fixed channel. -/
theorem okx_subscription_id_stable_and_injective (channel i1 i2 : String)
    (h : i1 ≠ i2) :
    de_okx_message_arg_as_subscription_id (argJson channel i1) =
      .ok (subscription_id channel i1) ∧
    subscription_id channel i1 ≠ subscription_id channel i2 := by
  constructor
  · rfl
  · intro hc
    exact h (congrArg SubscriptionId.instId hc)

/-- Witness for C5 at channel "trades" and instruments "BTC-USDT" /
"ETH-USDT". -/
theorem okx_subscription_id_stable_and_injective_witness :
    "BTC-USDT" ≠ "ETH-USDT" ∧
    (de_okx_message_arg_as_subscription_id (argJson "trades" "BTC-USDT") =
       .ok (subscription_id "trades" "BTC-USDT") ∧
     subscription_id "trades" "BTC-USDT" ≠ subscription_id "trades" "ETH-USDT") :=
  ⟨by decide,
   okx_subscription_id_stable_and_injective "trades" "BTC-USDT" "ETH-USDT" (by decide)⟩

/-- Embedding of the per-kind `StreamBuilder<Kind>` as `MultiStreamBuilder`
consumes it: `channels` is the venue-key set of its channels map (a
`HashMap`, so the keys are distinct), and `init` is the eventual outcome of
its initialization future — on success, the venue keys of the `streams` map
of the `Streams<Kind::Event>` handle it returns. -/
structure StreamBuilder where
  channels : List String
  init : Except DataError (List String)

/-- Embedding of `MultiStreamBuilder<Output>` (multi.rs 12–15). `channels`
maps each venue identifier to the identity of its allocated
`ExchangeChannel<Output>` (a fresh id per allocation, so reuse versus
re-allocation is observable); `futures` holds each queued
`BuilderInitFuture`, modelled by its eventual result; `nextChanId` is the
model's fresh-id supply. -/
structure MultiStreamBuilder where
  channels : List (String × Nat)
  futures : List (Except DataError Unit)
  nextChanId : Nat

/-- Embedding of `MultiStreamBuilder::new` (multi.rs 31–36). -/
def MultiStreamBuilder.new : MultiStreamBuilder :=
  { channels := [], futures := [], nextChanId := 0 }

/-- One `self.channels.entry(exchange).or_default().tx.clone()` step
(multi.rs 57): look the venue up; if absent, allocate a fresh
`ExchangeChannel` for it. Returns the new channels map, the new fresh-id
supply, and the cloned sender (the id of the venue's channel). -/
def entryOrDefault (channels : List (String × Nat)) (nextId : Nat)
    (exchange : String) : List (String × Nat) × Nat × Nat :=
  match channels.lookup exchange with
  | some cid => (channels, nextId, cid)
  | none => (channels ++ [(exchange, nextId)], nextId + 1, nextId)

/-- The `for exchange in builder.channels.keys()` loop of `add`
(multi.rs 55–61): ensure a unified channel per venue of the contributing
builder, and build the `exchange_txs` map handed to the queued future.
Returns (channels map, fresh-id supply, exchange_txs). -/
def registerExchanges : List String → List (String × Nat) → Nat →
    List (String × Nat) × Nat × List (String × Nat)
  | [], channels, nextId => (channels, nextId, [])
  | e :: es, channels, nextId =>
    let step := entryOrDefault channels nextId e
    let rest := registerExchanges es step.1 step.2.1
    (rest.1, rest.2.1, (e, step.2.2) :: rest.2.2)

/-- The queued future of one `add` call (multi.rs 64–86), modelled by its
eventual result: it awaits the contributing builder's `init` and propagates
its error with `?`; on success it spawns the forwarding tasks and returns
`Ok(())`. -/
def builderInitFuture (builder : StreamBuilder) : Except DataError Unit :=
  builder.init.map (fun _ => ())

/-- Embedding of `MultiStreamBuilder::add` (multi.rs 45–89): register the
contributing builder's venues in the unified channels map and append
exactly one queued initialization future. A pure state transformation —
nothing is awaited and no task is spawned until `init`. -/
def MultiStreamBuilder.add (self : MultiStreamBuilder)
    (builder : StreamBuilder) : MultiStreamBuilder :=
  let r := registerExchanges builder.channels self.channels self.nextChanId
  { channels := r.1
    futures := self.futures ++ [builderInitFuture builder]
    nextChanId := r.2.1 }

/-- A sequence of `add` calls starting from a given composition. -/
def addAll (self : MultiStreamBuilder) (builders : List StreamBuilder) :
    MultiStreamBuilder :=
  builders.foldl MultiStreamBuilder.add self

/-- Embedding of `futures::future::try_join_all` (multi.rs 96) over the
queued futures, each already modelled by its eventual result: succeeds iff
every future succeeds, otherwise fails with the first error in queue
order. -/
def tryJoinAll : List (Except DataError Unit) → Except DataError Unit
  | [] => .ok ()
  | .ok () :: fs => tryJoinAll fs
  | .error e :: _ => .error e

/-- The first error among the queued futures, if any. -/
def firstFutureError : List (Except DataError Unit) → Option DataError
  | [] => none
  | .ok () :: fs => firstFutureError fs
  | .error e :: _ => some e

/-- Embedding of the `Streams<Output>` handle (multi.rs 99–105): one
receiver per venue, a receiver being identified by its channel's id. -/
structure Streams where
  streams : List (String × Nat)
deriving DecidableEq

/-- Embedding of `MultiStreamBuilder::init` (multi.rs 94–106): await all
queued futures; on first failure propagate the error, otherwise build the
`Streams` handle from every channel's receiver half. -/
def MultiStreamBuilder.init (self : MultiStreamBuilder) :
    Except DataError Streams :=
  match tryJoinAll self.futures with
  | .error e => .error e
  | .ok () => .ok ⟨self.channels⟩

/-- State of one unified-output mpsc channel, `T = Output`. The sender is
used at multi.rs 80 as `let _ = exchange_tx.send(...)` with no `.await`:
`send` is a synchronous call returning a discardable `Result`, i.e. the
unbounded tokio sender API (the `ExchangeChannel` definition itself is
outside the provided sources; a bounded sender's `send` returns a future,
which this call site would drop unpolled, forwarding nothing). The model
therefore has no capacity bound: a send to an open channel always appends,
and a send after the receiver was dropped fails, changing nothing. -/
structure Channel (α : Type) where
  buffer : List α
  receiverDropped : Bool

/-- Error half of the sender's `send` result. -/
inductive SendError where
  | closed
deriving DecidableEq

def Channel.send {α : Type} (c : Channel α) (x : α) :
    Channel α × Except SendError Unit :=
  if c.receiverDropped then (c, .error .closed)
  else ({ c with buffer := c.buffer ++ [x] }, .ok ())

/-- Embedding of one forwarding task (multi.rs 78–82): receive every event
of the upstream per-kind receiver — modelled as the finite list of events
its source yields before closing — send the mapped event into the unified
channel, DISCARD the send result (`let _ =`), and continue. Returns the
final channel state and the number of loop iterations: the loop ends only
when the upstream list is exhausted, never on a failed send. -/
def forwardingTask {E O : Type} (f : E → O) :
    List E → Channel O → Channel O × Nat
  | [], c => (c, 0)
  | e :: es, c =>
    let step := c.send (f e)
    let rest := forwardingTask f es step.1
    (rest.1, rest.2 + 1)

/-- Iterated sends into a channel, for stating capacity properties. -/
def sendAll {O : Type} (xs : List O) (c : Channel O) : Channel O :=
  xs.foldl (fun c x => (c.send x).1) c

/-- Embedding of `exchange_txs.remove(&exchange)` followed by
`.expect(...)` (multi.rs 73–75): remove the entry with the venue's key;
`none` models the `expect` panicking. -/
def removeEntry (txs : List (String × Nat)) (e : String) :
    Option (Nat × List (String × Nat)) :=
  match txs with
  | [] => none
  | (k, v) :: rest =>
    if k = e then some (v, rest)
    else (removeEntry rest e).map (fun r => (r.1, (k, v) :: r.2))

/-- The `for_each` over the venues the contributing builder's `init`
returned (multi.rs 70–83): each venue removes its sender from
`exchange_txs` and spawns one forwarding task over it; `none` models a
panic of the `expect`. On success, returns the (venue, sender) pair each
spawned task owns. -/
def spawnForwardingTasks :
    List (String × Nat) → List String → Option (List (String × Nat))
  | _, [] => some []
  | txs, e :: es =>
    match removeEntry txs e with
    | none => none
    | some r => (spawnForwardingTasks r.2 es).map (fun ps => (e, r.1) :: ps)

theorem mem_keys_of_lookup_some {β : Type} (l : List (String × β)) (v : String)
    (c : β) (h : l.lookup v = some c) : v ∈ l.map Prod.fst := by
  induction l with
  | nil => simp [List.lookup] at h
  | cons p t ih =>
    obtain ⟨k, b⟩ := p
    cases hv : v == k with
    | false =>
      simp only [List.lookup, hv] at h
      simp [ih h]
    | true =>
      have : v = k := beq_iff_eq.1 hv
      simp [this]

theorem not_mem_keys_of_lookup_none {β : Type} (l : List (String × β))
    (v : String) (h : l.lookup v = none) : v ∉ l.map Prod.fst := by
  induction l with
  | nil => simp
  | cons p t ih =>
    obtain ⟨k, b⟩ := p
    cases hv : v == k with
    | true => simp [List.lookup, hv] at h
    | false =>
      simp only [List.lookup, hv] at h
      simp only [List.map_cons, List.mem_cons]
      rintro (h1 | h1)
      · rw [h1] at hv
        simp at hv
      · exact ih h h1

theorem lookup_append_left {β : Type} (l1 l2 : List (String × β)) (v : String)
    (c : β) (h : l1.lookup v = some c) : (l1 ++ l2).lookup v = some c := by
  induction l1 with
  | nil => simp [List.lookup] at h
  | cons p t ih =>
    obtain ⟨k, b⟩ := p
    cases hv : v == k with
    | true =>
      simp only [List.lookup, hv] at h
      simp only [List.cons_append, List.lookup, hv]
      exact h
    | false =>
      simp only [List.lookup, hv] at h
      simp only [List.cons_append, List.lookup, hv]
      exact ih h

theorem registerExchanges_lookup_preserved (es : List String)
    (ch : List (String × Nat)) (n : Nat) (v : String) (c : Nat)
    (h : ch.lookup v = some c) :
    (registerExchanges es ch n).1.lookup v = some c := by
  induction es generalizing ch n with
  | nil => simpa [registerExchanges]
  | cons e es ih =>
    cases hl : ch.lookup e with
    | some cid =>
      simp only [registerExchanges, entryOrDefault, hl]
      exact ih ch n h
    | none =>
      simp only [registerExchanges, entryOrDefault, hl]
      exact ih _ _ (lookup_append_left ch [(e, n)] v c h)

theorem registerExchanges_channels_append (es : List String)
    (ch : List (String × Nat)) (n : Nat) :
    ∃ new, (registerExchanges es ch n).1 = ch ++ new ∧
      ∀ p ∈ new, p.1 ∉ ch.map Prod.fst ∧ p.1 ∈ es := by
  induction es generalizing ch n with
  | nil => exact ⟨[], by simp [registerExchanges], by simp⟩
  | cons e es ih =>
    cases hl : ch.lookup e with
    | some cid =>
      obtain ⟨new, hnew, hprop⟩ := ih ch n
      refine ⟨new, ?_, ?_⟩
      · simpa only [registerExchanges, entryOrDefault, hl] using hnew
      · intro p hp
        exact ⟨(hprop p hp).1, by simp [(hprop p hp).2]⟩
    | none =>
      obtain ⟨new, hnew, hprop⟩ := ih (ch ++ [(e, n)]) (n + 1)
      refine ⟨(e, n) :: new, ?_, ?_⟩
      · simp only [registerExchanges, entryOrDefault, hl]
        rw [hnew]
        simp
      · intro p hp
        rcases List.mem_cons.1 hp with hp1 | hp1
        · subst hp1
          exact ⟨not_mem_keys_of_lookup_none ch e hl, by simp⟩
        · have hpr := hprop p hp1
          refine ⟨?_, by simp [hpr.2]⟩
          intro hmem
          exact hpr.1 (by simp [hmem])

theorem registerExchanges_keys_mem (es : List String)
    (ch : List (String × Nat)) (n : Nat) (v : String) :
    v ∈ (registerExchanges es ch n).1.map Prod.fst ↔
      v ∈ ch.map Prod.fst ∨ v ∈ es := by
  induction es generalizing ch n with
  | nil => simp [registerExchanges]
  | cons e es ih =>
    cases hl : ch.lookup e with
    | some cid =>
      simp only [registerExchanges, entryOrDefault, hl]
      rw [ih]
      constructor
      · rintro (h | h)
        · exact .inl h
        · exact .inr (by simp [h])
      · rintro (h | h)
        · exact .inl h
        · rcases List.mem_cons.1 h with h1 | h1
          · subst h1
            exact .inl (mem_keys_of_lookup_some ch v cid hl)
          · exact .inr h1
    | none =>
      simp only [registerExchanges, entryOrDefault, hl]
      rw [ih]
      simp only [List.map_append, List.mem_append, List.map_cons, List.map_nil,
        List.mem_singleton, List.mem_cons]
      tauto

theorem registerExchanges_keys_nodup (es : List String)
    (ch : List (String × Nat)) (n : Nat)
    (h : (ch.map Prod.fst).Nodup) :
    ((registerExchanges es ch n).1.map Prod.fst).Nodup := by
  induction es generalizing ch n with
  | nil => simpa [registerExchanges]
  | cons e es ih =>
    cases hl : ch.lookup e with
    | some cid =>
      simp only [registerExchanges, entryOrDefault, hl]
      exact ih ch n h
    | none =>
      simp only [registerExchanges, entryOrDefault, hl]
      apply ih
      have he := not_mem_keys_of_lookup_none ch e hl
      simp [List.nodup_append, h, he]

theorem multi_add_keys_mem (b : MultiStreamBuilder) (sb : StreamBuilder)
    (v : String) :
    v ∈ (b.add sb).channels.map Prod.fst ↔
      v ∈ b.channels.map Prod.fst ∨ v ∈ sb.channels := by
  simpa only [MultiStreamBuilder.add] using
    registerExchanges_keys_mem sb.channels b.channels b.nextChanId v

theorem addAll_keys_mem (builders : List StreamBuilder)
    (b : MultiStreamBuilder) (v : String) :
    v ∈ (addAll b builders).channels.map Prod.fst ↔
      v ∈ b.channels.map Prod.fst ∨ ∃ sb ∈ builders, v ∈ sb.channels := by
  induction builders generalizing b with
  | nil => simp [addAll]
  | cons sb bs ih =>
    simp only [addAll, List.foldl_cons] at *
    rw [ih (b.add sb), multi_add_keys_mem]
    simp only [List.mem_cons]
    constructor
    · rintro ((h | h) | ⟨sb2, hsb2, hv⟩)
      · exact .inl h
      · exact .inr ⟨sb, .inl rfl, h⟩
      · exact .inr ⟨sb2, .inr hsb2, hv⟩
    · rintro (h | ⟨sb2, (rfl | hsb2), hv⟩)
      · exact .inl (.inl h)
      · exact .inl (.inr hv)
      · exact .inr ⟨sb2, hsb2, hv⟩

theorem addAll_keys_nodup (builders : List StreamBuilder)
    (b : MultiStreamBuilder) (h : (b.channels.map Prod.fst).Nodup) :
    ((addAll b builders).channels.map Prod.fst).Nodup := by
  induction builders generalizing b with
  | nil => simpa [addAll]
  | cons sb bs ih =>
    simp only [addAll, List.foldl_cons] at *
    apply ih
    simpa only [MultiStreamBuilder.add] using
      registerExchanges_keys_nodup sb.channels b.channels b.nextChanId h

theorem tryJoinAll_ok_iff (fs : List (Except DataError Unit)) :
    tryJoinAll fs = .ok () ↔ ∀ f ∈ fs, f = .ok () := by
  induction fs with
  | nil => simp [tryJoinAll]
  | cons f fs ih =>
    cases f with
    | ok u =>
      cases u
      simp [tryJoinAll, ih]
    | error e => simp [tryJoinAll]

theorem firstFutureError_some (fs : List (Except DataError Unit))
    (e : DataError) (h : firstFutureError fs = some e) :
    tryJoinAll fs = .error e := by
  induction fs with
  | nil => simp [firstFutureError] at h
  | cons f fs ih =>
    cases f with
    | ok u =>
      cases u
      simp only [firstFutureError] at h
      simpa only [tryJoinAll] using ih h
    | error e2 =>
      simp only [firstFutureError, Option.some_inj] at h
      simp [tryJoinAll, h]

/-- Claim C3: if any queued initialization future fails, `init` propagates
the first error and never yields a handle; it yields the `Streams` handle
over the composition's channels exactly when every queued future
succeeds. -/
theorem multi_init_fail_fast (b : MultiStreamBuilder) :
    (∀ e, firstFutureError b.futures = some e →
       MultiStreamBuilder.init b = .error e) ∧
    (∀ s, MultiStreamBuilder.init b = .ok s →
       (∀ f ∈ b.futures, f = .ok ()) ∧ s = ⟨b.channels⟩) ∧
    ((∀ f ∈ b.futures, f = .ok ()) →
       MultiStreamBuilder.init b = .ok ⟨b.channels⟩) := by
  refine ⟨?_, ?_, ?_⟩
  · intro e he
    unfold MultiStreamBuilder.init
    rw [firstFutureError_some b.futures e he]
  · intro s hs
    unfold MultiStreamBuilder.init at hs
    cases htj : tryJoinAll b.futures with
    | error e =>
      rw [htj] at hs
      exact absurd hs (by simp)
    | ok u =>
      cases u
      rw [htj] at hs
      simp only [Except.ok.injEq] at hs
      exact ⟨(tryJoinAll_ok_iff b.futures).1 htj, hs.symm⟩
  · intro hall
    unfold MultiStreamBuilder.init
    rw [(tryJoinAll_ok_iff b.futures).2 hall]

/-- Witness for C3: a composition whose second queued future failed
propagates that error from `init`. -/
theorem multi_init_fail_fast_witness :
    MultiStreamBuilder.init
      ⟨[("okx", 0)],
       [Except.ok (), Except.error (DataError.socket "subscribe rejected")],
       1⟩ =
      .error (DataError.socket "subscribe rejected") :=
  (multi_init_fail_fast _).1 _ (by decide)

/-- Claim C4: composing builders from a fresh `MultiStreamBuilder` keeps
exactly one unified channel per distinct venue — the key set is
duplicate-free and holds precisely the venues some added builder mentions —
and an `add` never replaces an existing venue's channel: a venue already
mapped to a channel keeps that same channel. -/
theorem multi_add_one_channel_per_venue (builders : List StreamBuilder)
    (b : MultiStreamBuilder) (sb : StreamBuilder) (v : String) (cid : Nat)
    (hlook : b.channels.lookup v = some cid) :
    ((addAll MultiStreamBuilder.new builders).channels.map Prod.fst).Nodup ∧
    (v ∈ (addAll MultiStreamBuilder.new builders).channels.map Prod.fst ↔
       ∃ sb2 ∈ builders, v ∈ sb2.channels) ∧
    (b.add sb).channels.lookup v = some cid := by
  refine ⟨addAll_keys_nodup builders MultiStreamBuilder.new (by simp [MultiStreamBuilder.new]), ?_, ?_⟩
  · rw [addAll_keys_mem]
    simp [MultiStreamBuilder.new]
  · simpa only [MultiStreamBuilder.add] using
      registerExchanges_lookup_preserved sb.channels b.channels b.nextChanId v cid hlook

/-- Witness for C4: two builders both registering venue "X" — the composed
key set is the single key "X", and the second `add` kept the channel the
first `add` allocated (id 0). -/
theorem multi_add_one_channel_per_venue_witness :
    ((addAll MultiStreamBuilder.new
        [⟨["X"], Except.ok ["X"]⟩, ⟨["X"], Except.ok ["X"]⟩]).channels.map Prod.fst).Nodup ∧
    ("X" ∈ (addAll MultiStreamBuilder.new
        [⟨["X"], Except.ok ["X"]⟩, ⟨["X"], Except.ok ["X"]⟩]).channels.map Prod.fst ↔
       ∃ sb2 ∈ [(⟨["X"], Except.ok ["X"]⟩ : StreamBuilder), ⟨["X"], Except.ok ["X"]⟩],
         "X" ∈ sb2.channels) ∧
    ((MultiStreamBuilder.new.add ⟨["X"], Except.ok ["X"]⟩).add
        ⟨["X"], Except.ok ["X"]⟩).channels.lookup "X" = some 0 :=
  multi_add_one_channel_per_venue
    [⟨["X"], Except.ok ["X"]⟩, ⟨["X"], Except.ok ["X"]⟩]
    (MultiStreamBuilder.new.add ⟨["X"], Except.ok ["X"]⟩)
    ⟨["X"], Except.ok ["X"]⟩ "X" 0 (by decide)

/-- Claim C8: `add` is a pure deferred builder step — it appends exactly
one queued initialization future (running nothing), and its only effect on
the channels map is appending entries for venues of the argument builder
that were not yet present; every existing entry is left in place. -/
theorem multi_add_pure_deferred (b : MultiStreamBuilder) (sb : StreamBuilder) :
    (b.add sb).futures = b.futures ++ [builderInitFuture sb] ∧
    ∃ new, (b.add sb).channels = b.channels ++ new ∧
      ∀ p ∈ new, p.1 ∉ b.channels.map Prod.fst ∧ p.1 ∈ sb.channels := by
  refine ⟨rfl, ?_⟩
  simpa only [MultiStreamBuilder.add] using
    registerExchanges_channels_append sb.channels b.channels b.nextChanId

theorem forwardingTask_closed {E O : Type} (f : E → O) (events : List E)
    (c : Channel O) (h : c.receiverDropped = true) :
    (forwardingTask f events c).1 = c := by
  induction events generalizing c with
  | nil => rfl
  | cons e es ih =>
    have hstep : c.send (f e) = (c, .error .closed) := by
      simp [Channel.send, h]
    simp only [forwardingTask, hstep]
    exact ih c h

theorem forwardingTask_count {E O : Type} (f : E → O) (events : List E)
    (c : Channel O) : (forwardingTask f events c).2 = events.length := by
  induction events generalizing c with
  | nil => rfl
  | cons e es ih =>
    simp only [forwardingTask, List.length_cons]
    rw [ih]

/-- Claim C7: a forwarding task treats a failed send (receiver dropped) as
a non-error — the event is silently discarded, the channel state is left
unchanged — and its loop always runs once per upstream event, terminating
only when the upstream source closes, never early on send failure. -/
theorem forwarding_task_discards_and_continues {E O : Type} (f : E → O)
    (events : List E) (c : Channel O) (h : c.receiverDropped = true) :
    (forwardingTask f events c).1 = c ∧
    ∀ c2 : Channel O, (forwardingTask f events c2).2 = events.length :=
  ⟨forwardingTask_closed f events c h, fun c2 => forwardingTask_count f events c2⟩

/-- Witness for C7: three events forwarded into a dropped-receiver channel
leave it unchanged, and the loop runs three times on any channel. -/
theorem forwarding_task_discards_and_continues_witness :
    (⟨[], true⟩ : Channel Nat).receiverDropped = true ∧
    ((forwardingTask (fun n => n + 1) [1, 2, 3] (⟨[], true⟩ : Channel Nat)).1 =
        (⟨[], true⟩ : Channel Nat) ∧
     ∀ c2 : Channel Nat,
       (forwardingTask (fun n => n + 1) [1, 2, 3] c2).2 = [1, 2, 3].length) :=
  ⟨rfl, forwarding_task_discards_and_continues (fun n => n + 1) [1, 2, 3] ⟨[], true⟩ rfl⟩

/-- Claim C9 (amended): a send into an open unified channel is synchronous
and capacity-free — it always appends immediately and returns `Ok`, whatever
the buffer already holds — so a forwarding task never suspends on channel
fullness (and a fortiori never blocks sibling venues or kinds). -/
theorem unified_channel_send_is_sync_unbounded {O : Type} (c : Channel O)
    (x : O) (h : c.receiverDropped = false) :
    (c.send x).1.buffer = c.buffer ++ [x] ∧ (c.send x).2 = .ok () := by
  simp [Channel.send, h]

/-- Witness for the amended C9 theorem on a channel already holding two
events. -/
theorem unified_channel_send_is_sync_unbounded_witness :
    (⟨[5, 6], false⟩ : Channel Nat).receiverDropped = false ∧
    (((⟨[5, 6], false⟩ : Channel Nat).send 7).1.buffer = [5, 6] ++ [7] ∧
     ((⟨[5, 6], false⟩ : Channel Nat).send 7).2 = .ok ()) :=
  ⟨rfl, unified_channel_send_is_sync_unbounded ⟨[5, 6], false⟩ 7 rfl⟩

theorem sendAll_open {O : Type} (xs : List O) (c : Channel O)
    (h : c.receiverDropped = false) :
    (sendAll xs c).buffer = c.buffer ++ xs := by
  induction xs generalizing c with
  | nil => simp [sendAll]
  | cons x xs ih =>
    have hstep : (c.send x).1 = ⟨c.buffer ++ [x], false⟩ := by
      simp [Channel.send, h]
    have : sendAll (x :: xs) c = sendAll xs (c.send x).1 := rfl
    rw [this, hstep, ih ⟨c.buffer ++ [x], false⟩ rfl]
    simp

/-- Claim C9 counterexample: the unified output channel is NOT bounded — no
capacity bounds the buffer an open channel accumulates, because the
source's non-awaited `send` is the synchronous unbounded-sender call. -/
theorem unified_channel_bounded_counterexample :
    ¬ ∃ cap : Nat, ∀ xs : List Nat,
        (sendAll xs (⟨[], false⟩ : Channel Nat)).buffer.length ≤ cap := by
  rintro ⟨cap, hcap⟩
  have h := hcap (List.replicate (cap + 1) 0)
  rw [sendAll_open (List.replicate (cap + 1) 0) ⟨[], false⟩ rfl] at h
  simp only [List.nil_append, List.length_replicate] at h
  omega

theorem removeEntry_isSome (txs : List (String × Nat)) (e : String)
    (h : e ∈ txs.map Prod.fst) : (removeEntry txs e).isSome = true := by
  induction txs with
  | nil => simp at h
  | cons p t ih =>
    obtain ⟨k, b⟩ := p
    by_cases hk : k = e
    · simp [removeEntry, hk]
    · simp only [List.map_cons, List.mem_cons] at h
      rcases h with h1 | h1
      · exact absurd h1.symm hk
      · have := ih h1
        cases hr : removeEntry t e with
        | none => rw [hr] at this; simp at this
        | some r => simp [removeEntry, hk, hr]

theorem removeEntry_keys_mem (txs : List (String × Nat)) (e : String)
    (r : Nat × List (String × Nat)) (h : removeEntry txs e = some r)
    (x : String) (hx : x ≠ e) (hmem : x ∈ txs.map Prod.fst) :
    x ∈ r.2.map Prod.fst := by
  induction txs generalizing r with
  | nil => simp [removeEntry] at h
  | cons p t ih =>
    obtain ⟨k, b⟩ := p
    rw [List.map_cons] at hmem
    by_cases hk : k = e
    · simp only [removeEntry, if_pos hk, Option.some_inj] at h
      rcases List.mem_cons.1 hmem with h1 | h1
      · exact absurd (h1.trans hk) hx
      · rw [← h]
        exact h1
    · simp only [removeEntry, if_neg hk] at h
      cases hr : removeEntry t e with
      | none => rw [hr] at h; simp at h
      | some r2 =>
        rw [hr] at h
        simp only [Option.map_some', Option.some_inj] at h
        rcases List.mem_cons.1 hmem with h1 | h1
        · rw [← h, h1]
          simp
        · have hin := ih r2 hr h1
          rw [← h]
          simp only [List.map_cons, List.mem_cons]
          exact .inr hin

theorem spawnForwardingTasks_total (returned : List String)
    (txs : List (String × Nat)) (hnodup : returned.Nodup)
    (hsub : ∀ v ∈ returned, v ∈ txs.map Prod.fst) :
    (spawnForwardingTasks txs returned).isSome = true := by
  induction returned generalizing txs with
  | nil => simp [spawnForwardingTasks]
  | cons e es ih =>
    have he : e ∈ txs.map Prod.fst := hsub e (by simp)
    cases hr : removeEntry txs e with
    | none =>
      have := removeEntry_isSome txs e he
      rw [hr] at this
      simp at this
    | some r =>
      have hnd := List.nodup_cons.1 hnodup
      have hrec := ih r.2 hnd.2 (fun v hv =>
        removeEntry_keys_mem txs e r hr v
          (fun hveq => hnd.1 (hveq ▸ hv)) (hsub v (by simp [hv])))
      simp only [spawnForwardingTasks, hr]
      cases hs : spawnForwardingTasks r.2 es with
      | none => rw [hs] at hrec; simp at hrec
      | some ps => simp

/-- Claim C10: inside the future queued by `add`, the
`exchange_txs.remove(&exchange).expect(...)` lookup never panics, provided
the venues returned by the contributing builder's `init` are distinct and
are among the venues registered in that builder's channels map when `add`
ran (the keys of the `exchange_txs` map built there). -/
theorem exchange_txs_remove_never_panics (sb : StreamBuilder)
    (channels : List (String × Nat)) (nextId : Nat) (returned : List String)
    (hnodup : returned.Nodup)
    (hsub : ∀ v ∈ returned, v ∈
      (registerExchanges sb.channels channels nextId).2.2.map Prod.fst) :
    (spawnForwardingTasks
      (registerExchanges sb.channels channels nextId).2.2 returned).isSome = true :=
  spawnForwardingTasks_total returned _ hnodup hsub

/-- Witness for C10: a builder registering two venues whose `init` returns
both venues spawns both forwarding tasks without panicking. -/
theorem exchange_txs_remove_never_panics_witness :
    (["okx", "bybit_futures_usd"] : List String).Nodup ∧
    (spawnForwardingTasks
      (registerExchanges (⟨["okx", "bybit_futures_usd"],
          Except.ok ["okx", "bybit_futures_usd"]⟩ : StreamBuilder).channels [] 0).2.2
      ["okx", "bybit_futures_usd"]).isSome = true :=
  ⟨by decide,
   exchange_txs_remove_never_panics
     ⟨["okx", "bybit_futures_usd"], Except.ok ["okx", "bybit_futures_usd"]⟩
     [] 0 ["okx", "bybit_futures_usd"] (by decide) (by decide)⟩
